import Mathlib

/-!
Shallow embedding of the generational rotating store of the forest repository
(file src/db/rolling/impls.rs) and of the actor bundle loaders
(file src/daemon/bundle.rs).

The single generation engine (ParityDb behind the Db alias) is an external
collaborator of the core: only its interface contract (get, put, has, the
settings side channel) is visible to the rotating store, so it is modelled
at that boundary as a pair of association lists (content blocks keyed by
Cid, settings keyed by name).  Keys are modelled as Nat (a Cid is an opaque
content address here; the digest computation lives in the external cid
library), values as lists of Nat (byte strings).

The filesystem is modelled explicitly: the index file slot stands for the
fixed path db_root/db_index.yaml, and the directory list stands for the
generation directories under the database root.  Fallible environment steps
(opening a database, syncing the index file, deleting a directory) are
driven by explicit Bool parameters so that every execution of the Rust code
corresponds to one choice of those parameters.
-/

abbrev Key := Nat

abbrev Bytes := List Nat

/-- Single generation store, modelled at its interface boundary (spec section 6):
content blocks keyed by content address and a settings side channel keyed by
name.  Writes prepend, reads return the most recent binding. -/
structure Db where
  blocks : List (Key × Bytes)
  settings : List (String × Bytes)
deriving DecidableEq

/-- A freshly created generation store is empty. -/
def emptyDb : Db := ⟨[], []⟩

/-- Engine read of a content block (get in the Blockstore contract). -/
def Db.getBlock (d : Db) (k : Key) : Option Bytes := d.blocks.lookup k

/-- Engine membership test for a content block (has in the Blockstore contract). -/
def Db.hasBlock (d : Db) (k : Key) : Bool := (d.getBlock k).isSome

/-- Engine write of a content block (put_keyed in the Blockstore contract). -/
def Db.putKeyed (d : Db) (k : Key) (v : Bytes) : Db := ⟨(k, v) :: d.blocks, d.settings⟩

/-- Engine read of a named setting (read_bin in the SettingsStore contract). -/
def Db.readBin (d : Db) (key : String) : Option Bytes := d.settings.lookup key

/-- Engine write of a named setting (write_bin in the SettingsStore contract). -/
def Db.writeBin (d : Db) (key : String) (v : Bytes) : Db := ⟨d.blocks, (key, v) :: d.settings⟩

/-- Engine membership test for a named setting (the exists method of the
SettingsStore contract; exists is a reserved word in Lean). -/
def Db.existsBin (d : Db) (key : String) : Bool := (d.readBin key).isSome

/-- Engine enumeration of setting names (setting_keys in the SettingsStore contract). -/
def Db.settingKeys (d : Db) : List String := d.settings.map Prod.fst

/-- Folding a batch of keyed blocks into a generation store, in order. -/
def putAllBlocks (d : Db) (l : List (Key × Bytes)) : Db :=
  l.foldl (fun acc kv => acc.putKeyed kv.1 kv.2) d

/-- The persistent index record (DbIndex in src/db/rolling, serialized to
db_index.yaml): the two generation directory names and the chain epoch at
which the current generation was created. -/
structure DbIndex where
  current : String
  old : String
  current_creation_epoch : Int
deriving DecidableEq

/-- State of the index file on disk: absent, present but not deserializable,
or present and parsed to a record. -/
inductive IndexFile where
  | absent : IndexFile
  | corrupt : IndexFile
  | parsed : DbIndex → IndexFile
deriving DecidableEq

/-- The on-disk world relevant to the rotating store: the index file at its
fixed path under the root, and the generation directories under the root. -/
structure Fs where
  indexFile : IndexFile
  dirs : List (String × Db)
deriving DecidableEq

/-- The in-memory rotating store (RollingDB): the two live generation handles,
the in-memory index record, and the filesystem it owns. -/
structure RollingState where
  current : Db
  old : Db
  db_index : DbIndex
  fs : Fs
deriving DecidableEq

/-- open_db from src/db/rolling: opens the store under the named directory,
creating it (empty) when the directory does not exist yet. -/
def open_db (name : String) (fs : Fs) : Db × Fs :=
  match fs.dirs.lookup name with
  | some d => (d, fs)
  | none => (emptyDb, ⟨fs.indexFile, (name, emptyDb) :: fs.dirs⟩)

/-- delete_db from src/db/rolling/impls.rs lines 255 to 270: best effort
removal of a generation directory; failure (including the directory being
absent) is logged and never propagated.  The Bool result records whether a
directory was actually removed. -/
def delete_db (deleteOk : Bool) (name : String) (fs : Fs) : Fs × Bool :=
  if deleteOk && (fs.dirs.lookup name).isSome then
    (⟨fs.indexFile, fs.dirs.filter (fun p => !(p.1 == name))⟩, true)
  else (fs, false)

/-- The read loop of the RollingDB read path: query each store in queue order
and return the first hit (impls.rs lines 28 to 36 and 74 to 82). -/
def firstHit (dbs : List Db) (f : Db → Option Bytes) : Option Bytes :=
  match dbs with
  | [] => none
  | d :: rest =>
    match f d with
    | some v => some v
    | none => firstHit rest f

/-- The membership loop of the RollingDB read path: return true as soon as one
store in queue order answers true (impls.rs lines 18 to 26 and 88 to 96). -/
def anyHit (dbs : List Db) (f : Db → Bool) : Bool :=
  match dbs with
  | [] => false
  | d :: rest => f d || anyHit rest f

/-- db_queue (impls.rs lines 221 to 223): the current handle followed by the
old handle. -/
def RollingState.db_queue (s : RollingState) : List Db := [s.current, s.old]

/-- Blockstore get for RollingDB (impls.rs lines 28 to 36). -/
def RollingState.get (s : RollingState) (k : Key) : Option Bytes :=
  firstHit s.db_queue (fun d => d.getBlock k)

/-- Blockstore has for RollingDB (impls.rs lines 18 to 26). -/
def RollingState.has (s : RollingState) (k : Key) : Bool :=
  anyHit s.db_queue (fun d => d.hasBlock k)

/-- SettingsStore read_bin for RollingDB (impls.rs lines 74 to 82). -/
def RollingState.read_bin (s : RollingState) (key : String) : Option Bytes :=
  firstHit s.db_queue (fun d => d.readBin key)

/-- SettingsStore exists for RollingDB (impls.rs lines 88 to 96). -/
def RollingState.exists_bin (s : RollingState) (key : String) : Bool :=
  anyHit s.db_queue (fun d => d.existsBin key)

/-- SettingsStore setting_keys for RollingDB (impls.rs lines 98 to 104): the
set union of the names found in each store of the queue. -/
def RollingState.setting_keys (s : RollingState) : List String :=
  (s.current.settingKeys ++ s.old.settingKeys).dedup

/-- Blockstore put_keyed for RollingDB (impls.rs lines 68 to 70): always the
current handle. -/
def RollingState.put_keyed (s : RollingState) (k : Key) (v : Bytes) : RollingState :=
  ⟨s.current.putKeyed k v, s.old, s.db_index, s.fs⟩

/-- Blockstore put for RollingDB (impls.rs lines 38 to 48): the content address
is computed by the external cid library from the block bytes, so it is taken
as the key argument here; the write always targets the current handle. -/
def RollingState.put (s : RollingState) (k : Key) (v : Bytes) : RollingState :=
  ⟨s.current.putKeyed k v, s.old, s.db_index, s.fs⟩

/-- Blockstore put_many for RollingDB (impls.rs lines 50 to 57): always the
current handle. -/
def RollingState.put_many (s : RollingState) (l : List (Key × Bytes)) : RollingState :=
  ⟨putAllBlocks s.current l, s.old, s.db_index, s.fs⟩

/-- Blockstore put_many_keyed for RollingDB (impls.rs lines 59 to 66): always
the current handle. -/
def RollingState.put_many_keyed (s : RollingState) (l : List (Key × Bytes)) : RollingState :=
  ⟨putAllBlocks s.current l, s.old, s.db_index, s.fs⟩

/-- SettingsStore write_bin for RollingDB (impls.rs lines 84 to 86): always the
current handle. -/
def RollingState.write_bin (s : RollingState) (key : String) (v : Bytes) : RollingState :=
  ⟨s.current.writeBin key v, s.old, s.db_index, s.fs⟩

/-- BitswapStoreReadWrite insert for RollingDB (impls.rs lines 129 to 135):
always the current handle. -/
def RollingState.insert (s : RollingState) (k : Key) (v : Bytes) : RollingState :=
  ⟨s.current.putKeyed k v, s.old, s.db_index, s.fs⟩

/-- First-hit combination of two optional reads (current first, old second). -/
def orElseOpt (a b : Option Bytes) : Option Bytes :=
  match a with
  | some v => some v
  | none => b

/-- One iteration of the transfer_settings loop (impls.rs lines 225 to 236):
when the accumulating current store lacks the name, the value visible through
the current-then-old fan-out read is copied into it. -/
def transferStep (old : Db) (cur : Db) (key : String) : Db :=
  if cur.existsBin key then cur
  else
    match firstHit [cur, old] (fun d => d.readBin key) with
    | some v => cur.writeBin key v
    | none => cur

/-- transfer_settings (impls.rs lines 225 to 236): iterate over the union of
the setting names of the two live stores, copying every name missing from the
current store. -/
def transfer_settings (cur old : Db) : Db :=
  ((cur.settingKeys ++ old.settingKeys).dedup).foldl (transferStep old) cur

/-- Observable effects of one rotation, in program order. -/
inductive Ev where
  | openDir : String → Ev
  | syncIndex : DbIndex → Ev
  | deleteDir : String → Ev
  | transfer : Ev
deriving DecidableEq

/-- Whether an effect is a directory deletion. -/
def Ev.isDelete : Ev → Bool
  | Ev.deleteDir _ => true
  | _ => false

/-- Result of one next_current call: whether it returned Ok, the resulting
store and filesystem state, and the trace of performed effects. -/
structure RotResult where
  ok : Bool
  state : RollingState
  trace : List Ev
deriving DecidableEq

/-- next_current (impls.rs lines 171 to 190).  new_db_name stands for the
freshly generated Uuid; openOk, syncOk and deleteOk drive the three fallible
environment steps (open_db, FileBacked sync, remove_dir_all).  The source
order is: open the new store (line 174, an early return on failure), swap the
handles (line 175: old receives the previous current, current receives the
new store), update the index record in memory using the captured previous old
directory path (lines 177 to 182), sync the index file (line 183, an early
return on failure), best effort deletion of the superseded directory
(line 185), then the settings carry-forward (line 187). -/
def next_current (new_db_name : String) (current_epoch : Int)
    (openOk syncOk deleteOk : Bool) (s : RollingState) : RotResult :=
  if openOk then
    let dbfs := open_db new_db_name s.fs
    let idx1 : DbIndex := ⟨new_db_name, s.db_index.current, current_epoch⟩
    if syncOk then
      let del := delete_db deleteOk s.db_index.old ⟨IndexFile.parsed idx1, dbfs.2.dirs⟩
      ⟨true,
        ⟨transfer_settings dbfs.1 s.current, s.current, idx1, del.1⟩,
        [Ev.openDir new_db_name, Ev.syncIndex idx1]
          ++ (if del.2 then [Ev.deleteDir s.db_index.old] else []) ++ [Ev.transfer]⟩
    else ⟨false, ⟨dbfs.1, s.current, idx1, dbfs.2⟩, [Ev.openDir new_db_name]⟩
  else ⟨false, s, []⟩

/-- Core of load_dbs (impls.rs lines 239 to 253) once the index record has
been read: empty identifiers are replaced with freshly generated ones
(fresh1 and fresh2 stand for the Uuid values), the two named stores are
opened, and the index is synced to disk before returning. -/
def load_dbs_record (rec0 : DbIndex) (fresh1 fresh2 : String) (openOk syncOk : Bool)
    (fs : Fs) : Option (DbIndex × Db × Db × Fs) :=
  if openOk then
    if syncOk then
      some (⟨(if rec0.current = "" then fresh1 else rec0.current),
          (if rec0.old = "" then fresh2 else rec0.old), rec0.current_creation_epoch⟩,
        (open_db (if rec0.current = "" then fresh1 else rec0.current) fs).1,
        (open_db (if rec0.old = "" then fresh2 else rec0.old)
          (open_db (if rec0.current = "" then fresh1 else rec0.current) fs).2).1,
        ⟨IndexFile.parsed ⟨(if rec0.current = "" then fresh1 else rec0.current),
            (if rec0.old = "" then fresh2 else rec0.old), rec0.current_creation_epoch⟩,
          (open_db (if rec0.old = "" then fresh2 else rec0.old)
            (open_db (if rec0.current = "" then fresh1 else rec0.current) fs).2).2.dirs⟩)
    else none
  else none

/-- load_dbs (impls.rs lines 239 to 253).  Modelled from the spec: the
FileBacked load_from_file_or_create helper (src/utils/db/file_backed_obj.rs is
not part of this snapshot) reads the record at the fixed path; if the file is
absent it constructs the Default record (empty identifiers, epoch 0, matching
the emptiness checks at lines 243 to 248); if the file exists but cannot be
deserialized the error propagates and startup fails. -/
def load_dbs (fresh1 fresh2 : String) (openOk syncOk : Bool) (fs : Fs) :
    Option (DbIndex × Db × Db × Fs) :=
  match fs.indexFile with
  | IndexFile.corrupt => none
  | IndexFile.absent => load_dbs_record ⟨"", "", 0⟩ fresh1 fresh2 openOk syncOk fs
  | IndexFile.parsed r => load_dbs_record r fresh1 fresh2 openOk syncOk fs

/-- RollingDB load_or_create (impls.rs lines 154 to 167): ensure the root
exists, run load_dbs, and assemble the store. -/
def load_or_create (fresh1 fresh2 : String) (openOk syncOk : Bool) (fs : Fs) :
    Option RollingState :=
  match load_dbs fresh1 fresh2 openOk syncOk fs with
  | some x => some ⟨x.2.1, x.2.2.1, x.1, x.2.2.2⟩
  | none => none

/-- A decoded actor bundle: the declared header roots and the decoded
content-addressed blocks (the CAR decoding itself is an external
collaborator). -/
structure CarBundle where
  roots : List Key
  blocks : List (Key × Bytes)
deriving DecidableEq

/-- load_actor_bundles_from_path (bundle.rs lines 41 to 76): first check that
every required manifest root is among the declared header roots (the ensure
loop at lines 57 to 68), and only then write the decoded blocks into the
store (lines 71 to 73). -/
def load_actor_bundles_from_path (required : List Key) (bundle : CarBundle) (db : Db) :
    Bool × Db :=
  if required.all (fun m => bundle.roots.contains m) then
    (true, putAllBlocks db bundle.blocks)
  else (false, db)

/-- One bundle of load_actor_bundles_from_server (bundle.rs lines 87 to 137):
bundles whose manifest the store already has are skipped (line 97); otherwise
every decoded block is written first (lines 124 to 126) and the declared root
is verified only afterwards (lines 127 to 129). -/
def load_actor_bundle_from_server (root : Key) (bundle : CarBundle) (db : Db) : Bool × Db :=
  if db.hasBlock root then (true, db)
  else
    if bundle.roots.length = 1 ∧ bundle.roots.head? = some root then
      (true, putAllBlocks db bundle.blocks)
    else (false, putAllBlocks db bundle.blocks)

/-- Timeline of one reader (db_queue) racing one rotation (next_current) on
the two generation locks.  r1: the reader acquires the current read lock and
clones the handle; r2: the reader acquires the old read lock and clones the
handle; r3: the reader drops both guards.  w1: the rotation acquires the
current write lock and swaps in the fresh store; w2: the rotation acquires
the old write lock and stores the previous current; w3: the rotation drops
both guards.  In the Rust source both db_queue and the swap statement of
next_current keep their lock guards alive to the end of the statement, and
both acquire the current lock before the old lock. -/
structure LockSchedule where
  r1 : Nat
  r2 : Nat
  r3 : Nat
  w1 : Nat
  w2 : Nat
  w3 : Nat
deriving DecidableEq

/-- The handle pair a racing reader observes: the value of the current slot at
time r1 and the value of the old slot at time r2, given that the rotation
changes the current slot at w1 and the old slot at w2. -/
def observed_db_queue (s : RollingState) (freshDb : Db) (t : LockSchedule) : List Db :=
  [if t.r1 < t.w1 then s.current else freshDb,
   if t.r2 < t.w2 then s.old else s.current]

/-- The handle pair right after the swap of next_current line 175: the fresh
store as current, the previous current as old. -/
def post_pairing (s : RollingState) (freshDb : Db) : List Db := [freshDb, s.current]

/-- Sample index record used by concrete evaluations below. -/
def idx0 : DbIndex := ⟨"c0", "o0", 0⟩

/-- Sample filesystem with the two generation directories of idx0. -/
def fs0 : Fs := ⟨IndexFile.parsed idx0, [("c0", emptyDb), ("o0", emptyDb)]⟩

/-- Sample rotating store state over idx0 and fs0 with empty stores. -/
def state0 : RollingState := ⟨emptyDb, emptyDb, idx0, fs0⟩

/-- Sample state whose old generation holds a setting that the current
generation lacks. -/
def stateOldSetting : RollingState := ⟨emptyDb, ⟨[], [("a", [1])]⟩, idx0, fs0⟩

/-- Sample state whose current generation holds a setting. -/
def stateCurSetting : RollingState := ⟨⟨[], [("b", [2])]⟩, emptyDb, idx0, fs0⟩

theorem load_dbs_record_eq (rec0 : DbIndex) (fresh1 fresh2 : String) (fs : Fs) :
    load_dbs_record rec0 fresh1 fresh2 true true fs =
      some (⟨(if rec0.current = "" then fresh1 else rec0.current),
          (if rec0.old = "" then fresh2 else rec0.old), rec0.current_creation_epoch⟩,
        (open_db (if rec0.current = "" then fresh1 else rec0.current) fs).1,
        (open_db (if rec0.old = "" then fresh2 else rec0.old)
          (open_db (if rec0.current = "" then fresh1 else rec0.current) fs).2).1,
        ⟨IndexFile.parsed ⟨(if rec0.current = "" then fresh1 else rec0.current),
            (if rec0.old = "" then fresh2 else rec0.old), rec0.current_creation_epoch⟩,
          (open_db (if rec0.old = "" then fresh2 else rec0.old)
            (open_db (if rec0.current = "" then fresh1 else rec0.current) fs).2).2.dirs⟩) := rfl

theorem anyHit_pair (a b : Db) (f : Db → Bool) : anyHit [a, b] f = (f a || f b) := by
  simp [anyHit]

theorem firstHit_pair (a b : Db) (f : Db → Option Bytes) :
    firstHit [a, b] f = orElseOpt (f a) (f b) := by
  cases ha : f a <;> cases hb : f b <;> simp [firstHit, orElseOpt, ha, hb]

theorem has_pair (s : RollingState) (k : Key) :
    RollingState.has s k = (s.current.hasBlock k || s.old.hasBlock k) := by
  simp [RollingState.has, RollingState.db_queue, anyHit]

theorem get_pair (s : RollingState) (k : Key) :
    RollingState.get s k = orElseOpt (s.current.getBlock k) (s.old.getBlock k) := by
  simp [RollingState.get, RollingState.db_queue, firstHit_pair]

theorem read_bin_pair (s : RollingState) (key : String) :
    RollingState.read_bin s key = orElseOpt (s.current.readBin key) (s.old.readBin key) := by
  simp [RollingState.read_bin, RollingState.db_queue, firstHit_pair]

theorem exists_bin_pair (s : RollingState) (key : String) :
    RollingState.exists_bin s key = (s.current.existsBin key || s.old.existsBin key) := by
  simp [RollingState.exists_bin, RollingState.db_queue, anyHit]

theorem orElseOpt_eq_none (a b : Option Bytes) :
    orElseOpt a b = none ↔ (a = none ∧ b = none) := by
  cases a <;> simp [orElseOpt]

/-- C3: the content reads get and has, and the settings reads read_bin and
exists, query the current generation first and the old generation second and
return the first hit; the absent result (none, false) is returned exactly
when the key is found in neither generation.  The reads are total functions
of the store state (the underlying engine contract of spec section 6 returns
absence as a value, never as a failure). -/
theorem c3_read_fanout (s : RollingState) (k : Key) (key : String) :
    (RollingState.get s k = orElseOpt (s.current.getBlock k) (s.old.getBlock k)) ∧
    (RollingState.has s k = (s.current.hasBlock k || s.old.hasBlock k)) ∧
    (RollingState.read_bin s key = orElseOpt (s.current.readBin key) (s.old.readBin key)) ∧
    (RollingState.exists_bin s key = (s.current.existsBin key || s.old.existsBin key)) ∧
    (RollingState.get s k = none ↔ (s.current.getBlock k = none ∧ s.old.getBlock k = none)) ∧
    (RollingState.has s k = false ↔
      (s.current.hasBlock k = false ∧ s.old.hasBlock k = false)) ∧
    (RollingState.read_bin s key = none ↔
      (s.current.readBin key = none ∧ s.old.readBin key = none)) ∧
    (RollingState.exists_bin s key = false ↔
      (s.current.existsBin key = false ∧ s.old.existsBin key = false)) := by
  refine ⟨get_pair s k, has_pair s k, read_bin_pair s key, exists_bin_pair s key, ?_, ?_, ?_, ?_⟩
  · rw [get_pair]; exact orElseOpt_eq_none _ _
  · rw [has_pair]; simp
  · rw [read_bin_pair]; exact orElseOpt_eq_none _ _
  · rw [exists_bin_pair]; simp

/-- C4: every write operation of the rotating store targets the current
generation only: the old handle, the index record, and the filesystem are
unchanged by put, put_many, put_many_keyed, put_keyed, write_bin and insert. -/
theorem c4_writes_only_current (s : RollingState) (k : Key) (v : Bytes)
    (l : List (Key × Bytes)) (key : String) (b : Bytes) :
    ((s.put_keyed k v).old = s.old ∧ (s.put_keyed k v).db_index = s.db_index ∧
      (s.put_keyed k v).fs = s.fs) ∧
    ((s.put k v).old = s.old ∧ (s.put k v).db_index = s.db_index ∧ (s.put k v).fs = s.fs) ∧
    ((s.put_many l).old = s.old ∧ (s.put_many l).db_index = s.db_index ∧
      (s.put_many l).fs = s.fs) ∧
    ((s.put_many_keyed l).old = s.old ∧ (s.put_many_keyed l).db_index = s.db_index ∧
      (s.put_many_keyed l).fs = s.fs) ∧
    ((s.write_bin key b).old = s.old ∧ (s.write_bin key b).db_index = s.db_index ∧
      (s.write_bin key b).fs = s.fs) ∧
    ((s.insert k v).old = s.old ∧ (s.insert k v).db_index = s.db_index ∧
      (s.insert k v).fs = s.fs) := by
  exact ⟨⟨rfl, rfl, rfl⟩, ⟨rfl, rfl, rfl⟩, ⟨rfl, rfl, rfl⟩, ⟨rfl, rfl, rfl⟩,
    ⟨rfl, rfl, rfl⟩, ⟨rfl, rfl, rfl⟩⟩

/-- C10: when opening the fresh generation store fails, next_current returns
an error with the store entirely unchanged: the current and old handles, the
in-memory index, the on-disk index file and the generation directories are
exactly as before the call, and no effect was performed. -/
theorem c10_open_failure_unchanged (n : String) (e : Int) (syncOk deleteOk : Bool)
    (s : RollingState) :
    next_current n e false syncOk deleteOk s = ⟨false, s, []⟩ := rfl

theorem open_db_indexFile (n : String) (fs : Fs) :
    (open_db n fs).2.indexFile = fs.indexFile := by
  unfold open_db
  cases fs.dirs.lookup n <;> rfl

theorem mem_open_db_dirs (n : String) (fs : Fs) (x : String × Db) (h : x ∈ fs.dirs) :
    x ∈ (open_db n fs).2.dirs := by
  unfold open_db
  cases fs.dirs.lookup n with
  | some d => exact h
  | none => exact List.mem_cons_of_mem _ h

theorem delete_db_indexFile (ok : Bool) (n : String) (fs : Fs) :
    (delete_db ok n fs).1.indexFile = fs.indexFile := by
  unfold delete_db
  split <;> rfl

theorem next_current_syncfail (n : String) (e : Int) (d : Bool) (s : RollingState) :
    next_current n e true false d s =
      ⟨false, ⟨(open_db n s.fs).1, s.current, ⟨n, s.db_index.current, e⟩, (open_db n s.fs).2⟩,
        [Ev.openDir n]⟩ := rfl

theorem next_current_ok (n : String) (e : Int) (d : Bool) (s : RollingState) :
    next_current n e true true d s =
      ⟨true,
        ⟨transfer_settings (open_db n s.fs).1 s.current, s.current, ⟨n, s.db_index.current, e⟩,
          (delete_db d s.db_index.old
            ⟨IndexFile.parsed ⟨n, s.db_index.current, e⟩, (open_db n s.fs).2.dirs⟩).1⟩,
        [Ev.openDir n, Ev.syncIndex ⟨n, s.db_index.current, e⟩]
          ++ (if (delete_db d s.db_index.old
                ⟨IndexFile.parsed ⟨n, s.db_index.current, e⟩, (open_db n s.fs).2.dirs⟩).2 then
                [Ev.deleteDir s.db_index.old] else []) ++ [Ev.transfer]⟩ := rfl

/-- C2: in every execution of next_current, the index record already updated
in memory (new current name, previous current as old, new epoch) is durably
written by a successful sync strictly before the superseded directory is
deleted: when sync fails the call returns an error, performs no deletion,
keeps every on-disk directory and leaves the index file untouched; when sync
succeeds the index file holds the updated record, and every deletion effect
in the trace concerns the previously old directory and is preceded by the
sync effect carrying the updated record. -/
theorem c2_sync_before_delete (n : String) (e : Int) (d : Bool) (s : RollingState) :
    ((next_current n e true false d s).ok = false ∧
      ((next_current n e true false d s).trace.all (fun ev => ! ev.isDelete)) = true ∧
      (∀ x : String × Db, x ∈ s.fs.dirs → x ∈ (next_current n e true false d s).state.fs.dirs) ∧
      (next_current n e true false d s).state.fs.indexFile = s.fs.indexFile) ∧
    ((next_current n e true true d s).state.fs.indexFile =
        IndexFile.parsed ⟨n, s.db_index.current, e⟩ ∧
      (∀ i p, (next_current n e true true d s).trace.get? i = some (Ev.deleteDir p) →
        p = s.db_index.old ∧ ∃ j, j < i ∧
          (next_current n e true true d s).trace.get? j =
            some (Ev.syncIndex ⟨n, s.db_index.current, e⟩))) := by
  constructor
  · rw [next_current_syncfail]
    refine ⟨rfl, ?_, ?_, ?_⟩
    · simp [Ev.isDelete]
    · intro x hx
      exact mem_open_db_dirs n s.fs x hx
    · exact open_db_indexFile n s.fs
  · rw [next_current_ok]
    constructor
    · exact delete_db_indexFile _ _ _
    · intro i p h
      by_cases hdel : (delete_db d s.db_index.old
          ⟨IndexFile.parsed ⟨n, s.db_index.current, e⟩, (open_db n s.fs).2.dirs⟩).2 = true
      · rw [hdel] at h
        simp only [if_pos rfl] at h
        match i with
        | 0 => simp [List.get?] at h
        | 1 => simp [List.get?] at h
        | 2 =>
          simp only [List.get?] at h
          refine ⟨by injection h with h2; exact (Ev.deleteDir.injEq _ _).mp h2.symm, 1, ?_, ?_⟩
          · omega
          · simp [List.get?]
        | (Nat.succ (Nat.succ (Nat.succ m))) =>
          simp [List.get?] at h
          cases m with
          | zero => exact absurd h (by simp)
          | succ m2 => simp [List.get?] at h
      · rw [Bool.not_eq_true] at hdel
        rw [hdel] at h
        simp only [Bool.false_eq_true, if_false] at h
        match i with
        | 0 => simp [List.get?] at h
        | 1 => simp [List.get?] at h
        | 2 => simp [List.get?] at h
        | (Nat.succ (Nat.succ (Nat.succ m))) => simp [List.get?] at h

/-- C7: load_or_create reads the index record from the fixed path under the
root; when the file is absent it builds the default record, replaces the
empty identifiers with the freshly generated ones, keeps creation epoch 0 and
persists the result; when the file exists but cannot be deserialized the call
fails instead of constructing a default. -/
theorem c7_load_or_create_index (fresh1 fresh2 : String) (dirs : List (String × Db))
    (openOk syncOk : Bool) :
    (∃ cur old fs2, load_dbs fresh1 fresh2 true true ⟨IndexFile.absent, dirs⟩ =
        some (⟨fresh1, fresh2, 0⟩, cur, old, fs2) ∧
      fs2.indexFile = IndexFile.parsed ⟨fresh1, fresh2, 0⟩) ∧
    load_dbs fresh1 fresh2 openOk syncOk ⟨IndexFile.corrupt, dirs⟩ = none := by
  constructor
  · exact ⟨_, _, _, rfl, rfl⟩
  · rfl

theorem open_db_none (n : String) (fs : Fs) (h : fs.dirs.lookup n = none) :
    open_db n fs = (emptyDb, ⟨fs.indexFile, (n, emptyDb) :: fs.dirs⟩) := by
  unfold open_db
  rw [h]

theorem orElseOpt_absorb (a b : Option Bytes) :
    orElseOpt (orElseOpt a b) b = orElseOpt a b := by
  cases a <;> cases b <;> rfl

theorem transferStep_blocks (o c : Db) (key : String) :
    (transferStep o c key).blocks = c.blocks := by
  unfold transferStep
  split
  · rfl
  · split <;> rfl

theorem foldl_transfer_blocks (o : Db) (keys : List String) :
    ∀ c : Db, ((keys.foldl (transferStep o) c).blocks = c.blocks) := by
  induction keys with
  | nil => intro c; rfl
  | cons x t ih =>
    intro c
    rw [List.foldl_cons, ih, transferStep_blocks]

theorem transfer_settings_blocks (c o : Db) : (transfer_settings c o).blocks = c.blocks :=
  foldl_transfer_blocks o _ c

theorem readBin_writeBin (c : Db) (key k : String) (v : Bytes) :
    (c.writeBin key v).readBin k = if (k == key) then some v else c.readBin k := by
  cases hk : k == key <;> simp [Db.writeBin, Db.readBin, List.lookup, hk]

theorem transferStep_readBin_ne (o c : Db) (key k : String) (h : (k == key) = false) :
    (transferStep o c key).readBin k = c.readBin k := by
  unfold transferStep
  split
  · rfl
  · split
    · rw [readBin_writeBin]
      simp [h]
    · rfl

theorem transferStep_readBin_self (o c : Db) (key : String) :
    (transferStep o c key).readBin key = orElseOpt (c.readBin key) (o.readBin key) := by
  unfold transferStep
  by_cases h : c.existsBin key = true
  · rw [if_pos h]
    simp only [Db.existsBin] at h
    cases hv : c.readBin key with
    | none => rw [hv] at h; simp at h
    | some v => simp [orElseOpt, hv]
  · rw [if_neg h]
    cases hv : c.readBin key with
    | some v => exact absurd (by simp [Db.existsBin, hv]) h
    | none =>
      have hfh : firstHit [c, o] (fun d => d.readBin key) = o.readBin key := by
        rw [firstHit_pair]
        simp [orElseOpt, hv]
      rw [hfh]
      cases ho : o.readBin key with
      | some w =>
        rw [readBin_writeBin]
        simp [orElseOpt, hv]
      | none => simp [orElseOpt, hv]

theorem foldl_transfer_readBin_notmem (o : Db) (keys : List String) (k : String) :
    ∀ c : Db, k ∉ keys → ((keys.foldl (transferStep o) c).readBin k = c.readBin k) := by
  induction keys with
  | nil => intro c _; rfl
  | cons x t ih =>
    intro c h
    have hx : (k == x) = false := by
      refine beq_eq_false_iff_ne.mpr (fun hxk => h ?_)
      rw [← hxk]
      exact List.mem_cons_self k t
    rw [List.foldl_cons, ih _ (fun hm => h (List.mem_cons_of_mem x hm)),
      transferStep_readBin_ne o c x k hx]

theorem foldl_transfer_readBin_mem (o : Db) (keys : List String) (k : String) :
    ∀ c : Db, k ∈ keys →
      ((keys.foldl (transferStep o) c).readBin k = orElseOpt (c.readBin k) (o.readBin k)) := by
  induction keys with
  | nil => intro c h; exact absurd h (List.not_mem_nil k)
  | cons x t ih =>
    intro c h
    rw [List.foldl_cons]
    by_cases hxk : x = k
    · subst hxk
      by_cases hmem : x ∈ t
      · rw [ih _ hmem, transferStep_readBin_self, orElseOpt_absorb]
      · rw [foldl_transfer_readBin_notmem o t x _ hmem, transferStep_readBin_self]
    · have hx : (k == x) = false := beq_eq_false_iff_ne.mpr (fun hkx => hxk hkx.symm)
      have hmem : k ∈ t := by
        cases List.mem_cons.mp h with
        | inl h1 => exact absurd h1.symm hxk
        | inr h2 => exact h2
      rw [ih _ hmem, transferStep_readBin_ne o c x k hx]

theorem lookup_mem_fst (k : String) (l : List (String × Bytes)) (v : Bytes)
    (h : List.lookup k l = some v) : k ∈ l.map Prod.fst := by
  induction l with
  | nil => simp [List.lookup] at h
  | cons x t ih =>
    obtain ⟨a, b⟩ := x
    cases hak : k == a with
    | true =>
      have hek : k = a := eq_of_beq hak
      rw [hek]
      exact List.mem_cons_self a (t.map Prod.fst)
    | false =>
      simp only [List.lookup, hak] at h
      exact List.mem_cons_of_mem a (ih h)

theorem transfer_settings_readBin_of_current (c o : Db) (k : String) (v : Bytes)
    (h : c.readBin k = some v) : (transfer_settings c o).readBin k = some v := by
  have hmem : k ∈ (c.settingKeys ++ o.settingKeys).dedup := by
    rw [List.mem_dedup, List.mem_append]
    exact Or.inl (lookup_mem_fst k c.settings v h)
  rw [transfer_settings, foldl_transfer_readBin_mem _ _ _ _ hmem, h]
  rfl

theorem transfer_settings_readBin_mem (c o : Db) (k : String)
    (h : k ∈ c.settingKeys ∨ k ∈ o.settingKeys) :
    (transfer_settings c o).readBin k = orElseOpt (c.readBin k) (o.readBin k) := by
  have hmem : k ∈ (c.settingKeys ++ o.settingKeys).dedup := by
    rw [List.mem_dedup, List.mem_append]
    exact h
  rw [transfer_settings]
  exact foldl_transfer_readBin_mem _ _ _ _ hmem

theorem next_current_ok_fresh (n : String) (e : Int) (d : Bool) (s : RollingState)
    (hn : s.fs.dirs.lookup n = none) :
    (next_current n e true true d s).state.current = transfer_settings emptyDb s.current ∧
    (next_current n e true true d s).state.old = s.current ∧
    (next_current n e true true d s).state.fs =
      (delete_db d s.db_index.old
        ⟨IndexFile.parsed ⟨n, s.db_index.current, e⟩, (n, emptyDb) :: s.fs.dirs⟩).1 := by
  rw [next_current_ok, open_db_none n s.fs hn]
  exact ⟨rfl, rfl, rfl⟩

/-- C5 as stated is false on the code: the settings carry-forward of
next_current runs after the swap, over the fan-out of the new current (fresh,
empty) and the new old (the previous current), so a setting name visible
before the rotation only in the previous old generation is dropped.  Here the
setting a is readable via the fan-out before the rotation, the rotation
succeeds, and afterwards the new current does not store it and the fan-out
read no longer finds it. -/
theorem c5_counterexample :
    RollingState.read_bin stateOldSetting "a" = some [1] ∧
    (next_current "g" 1 true true true stateOldSetting).ok = true ∧
    (next_current "g" 1 true true true stateOldSetting).state.current.readBin "a" = none ∧
    (next_current "g" 1 true true true stateOldSetting).state.read_bin "a" = none := by
  refine ⟨by decide, by decide, by decide, by decide⟩

/-- C5 amended: after a successful rotation, every setting name readable in
the pre-rotation current generation (in particular every setting written
before the rotation, since writes target current) is stored directly in the
new current generation with its fan-out value, and remains readable through
the fan-out read immediately after the rotation. -/
theorem c5_carry_forward (s : RollingState) (n : String) (e : Int) (d : Bool)
    (name : String) (v : Bytes)
    (hn : s.fs.dirs.lookup n = none) (hcur : s.current.readBin name = some v) :
    (next_current n e true true d s).state.current.readBin name = some v ∧
    (next_current n e true true d s).state.read_bin name = some v := by
  obtain ⟨hc, ho, _⟩ := next_current_ok_fresh n e d s hn
  have h1 : (next_current n e true true d s).state.current.readBin name = some v := by
    rw [hc, transfer_settings_readBin_mem emptyDb s.current name
      (Or.inr (lookup_mem_fst name s.current.settings v hcur)), hcur]
    rfl
  refine ⟨h1, ?_⟩
  rw [read_bin_pair, h1]
  rfl

/-- Witness for the amended C5 at a concrete input. -/
theorem c5_witness :
    (next_current "g" 1 true true true stateCurSetting).state.current.readBin "b" = some [2] ∧
    (next_current "g" 1 true true true stateCurSetting).state.read_bin "b" = some [2] :=
  c5_carry_forward stateCurSetting "g" 1 true "b" [2] (by decide) (by decide)

theorem lookup_filter_none (k : String) (p : String × Db → Bool) (l : List (String × Db))
    (h : List.lookup k l = none) : List.lookup k (l.filter p) = none := by
  induction l with
  | nil => rfl
  | cons x t ih =>
    obtain ⟨a, b⟩ := x
    cases hak : k == a with
    | true =>
      simp only [List.lookup, hak] at h
      exact absurd h (by simp)
    | false =>
      simp only [List.lookup, hak] at h
      cases hp : p (a, b) with
      | true =>
        simp only [List.filter, hp, List.lookup, hak]
        exact ih h
      | false =>
        simp only [List.filter, hp]
        exact ih h

theorem delete_db_lookup_none (ok : Bool) (nm k : String) (fs : Fs)
    (h : fs.dirs.lookup k = none) : (delete_db ok nm fs).1.dirs.lookup k = none := by
  unfold delete_db
  split
  · exact lookup_filter_none k _ fs.dirs h
  · exact h

theorem hasBlock_empty_blocks (d : Db) (k : Key) (h : d.blocks = []) :
    d.hasBlock k = false := by
  simp [Db.hasBlock, Db.getBlock, h]

theorem hasBlock_putKeyed (d : Db) (a : Key) (v : Bytes) (k : Key) :
    ((d.putKeyed a v).hasBlock k = true) ↔ (k = a ∨ d.hasBlock k = true) := by
  cases hak : k == a with
  | true =>
    have hka : k = a := eq_of_beq hak
    simp [Db.hasBlock, Db.getBlock, Db.putKeyed, List.lookup, hak, hka]
  | false =>
    have hka : k ≠ a := ne_of_beq_false hak
    simp [Db.hasBlock, Db.getBlock, Db.putKeyed, List.lookup, hak, hka]

theorem hasBlock_putAll (l : List (Key × Bytes)) (d : Db) (k : Key) :
    ((putAllBlocks d l).hasBlock k = true) ↔ (k ∈ l.map Prod.fst ∨ d.hasBlock k = true) := by
  induction l generalizing d with
  | nil => simp [putAllBlocks]
  | cons x t ih =>
    have hstep : putAllBlocks d (x :: t) = putAllBlocks (d.putKeyed x.1 x.2) t := rfl
    rw [hstep, ih, hasBlock_putKeyed]
    simp only [List.map_cons, List.mem_cons]
    tauto

/-- C1 as stated is false on the code: a key written both strictly before the
first rotation and strictly after it is still visible after the second
rotation, because the generation that survives as old after the second
rotation holds the later write; the claim demands has of that key be false
since it was written before the first rotation. -/
theorem c1_counterexample :
    (5 : Key) ∈ ([((5 : Key), ([1] : Bytes))].map Prod.fst) ∧
    (5 : Key) ∈ ([((5 : Key), ([2] : Bytes))].map Prod.fst) ∧
    RollingState.has
      ((next_current "g2" 2 true true true
        (RollingState.put_many_keyed
          ((next_current "g1" 1 true true true
            (RollingState.put_many_keyed state0 [(5, [1])])).state)
          [(5, [2])])).state) 5 = true := by
  refine ⟨by decide, by decide, by decide⟩

/-- C1 amended: for every key k1 written strictly before the first rotation
and not written again strictly after it, and every key k2 written strictly
after the first rotation, a second successful rotation leaves has of k1 false
and has of k2 true; the freshly generated generation names are assumed not to
collide with existing directories, matching Uuid freshness. -/
theorem c1_rotation_pruning (s0 : RollingState) (W1 W2 : List (Key × Bytes))
    (n1 n2 : String) (e1 e2 : Int) (d1 d2 : Bool) (k1 k2 : Key)
    (hk1 : k1 ∈ W1.map Prod.fst) (hk2 : k2 ∈ W2.map Prod.fst)
    (hk12 : k1 ∉ W2.map Prod.fst)
    (hn1 : s0.fs.dirs.lookup n1 = none) (hn2 : s0.fs.dirs.lookup n2 = none)
    (hnn : n2 ≠ n1) :
    RollingState.has ((next_current n2 e2 true true d2
      (RollingState.put_many_keyed
        ((next_current n1 e1 true true d1 (RollingState.put_many_keyed s0 W1)).state)
        W2)).state) k1 = false ∧
    RollingState.has ((next_current n2 e2 true true d2
      (RollingState.put_many_keyed
        ((next_current n1 e1 true true d1 (RollingState.put_many_keyed s0 W1)).state)
        W2)).state) k2 = true := by
  set A := RollingState.put_many_keyed s0 W1 with hA
  have hAfs : A.fs = s0.fs := rfl
  obtain ⟨hBc, hBo, hBf⟩ := next_current_ok_fresh n1 e1 d1 A (by rw [hAfs]; exact hn1)
  set sB := (next_current n1 e1 true true d1 A).state with hsB
  have hBblocks : sB.current.blocks = [] := by
    rw [hBc, transfer_settings_blocks]
    rfl
  have hlk2 : List.lookup n2 ((n1, emptyDb) :: A.fs.dirs) = none := by
    have hb : (n2 == n1) = false := beq_eq_false_iff_ne.mpr hnn
    simp only [List.lookup, hb]
    rw [hAfs]
    exact hn2
  have hsBfs : sB.fs.dirs.lookup n2 = none := by
    rw [hBf]
    exact delete_db_lookup_none _ _ _ _ hlk2
  set sC := RollingState.put_many_keyed sB W2 with hsC
  obtain ⟨hDc, hDo, _⟩ := next_current_ok_fresh n2 e2 d2 sC hsBfs
  set sD := (next_current n2 e2 true true d2 sC).state with hsD
  have hDcur : ∀ k : Key, sD.current.hasBlock k = false := by
    intro k
    refine hasBlock_empty_blocks _ _ ?_
    rw [hDc, transfer_settings_blocks]
    rfl
  have hsCcur : sC.current = putAllBlocks sB.current W2 := rfl
  constructor
  · rw [has_pair, hDcur k1, hDo, hsCcur]
    cases hb : (putAllBlocks sB.current W2).hasBlock k1 with
    | false => rfl
    | true =>
      rcases (hasBlock_putAll W2 sB.current k1).mp hb with h | h
      · exact absurd h hk12
      · rw [hasBlock_empty_blocks sB.current k1 hBblocks] at h
        exact absurd h (by simp)
  · rw [has_pair, hDcur k2, hDo, hsCcur,
      (hasBlock_putAll W2 sB.current k2).mpr (Or.inl hk2)]
    rfl

/-- Witness for the amended C1 at concrete inputs. -/
theorem c1_witness :
    RollingState.has ((next_current "g2" 2 true true true
      (RollingState.put_many_keyed
        ((next_current "g1" 1 true true true
          (RollingState.put_many_keyed state0 [(5, [1])])).state)
        [(6, [2])])).state) 5 = false ∧
    RollingState.has ((next_current "g2" 2 true true true
      (RollingState.put_many_keyed
        ((next_current "g1" 1 true true true
          (RollingState.put_many_keyed state0 [(5, [1])])).state)
        [(6, [2])])).state) 6 = true :=
  c1_rotation_pruning state0 [(5, [1])] [(6, [2])] "g1" "g2" 1 2 true true 5 6
    (by decide) (by decide) (by decide) (by decide) (by decide) (by decide)

theorem rotation_trace_delete_name (n : String) (e : Int) (d : Bool) (s : RollingState)
    (p : String) (hp : Ev.deleteDir p ∈ (next_current n e true true d s).trace) :
    p = s.db_index.old := by
  rw [next_current_ok] at hp
  generalize (delete_db d s.db_index.old
    ⟨IndexFile.parsed ⟨n, s.db_index.current, e⟩, (open_db n s.fs).2.dirs⟩).2 = b at hp
  cases b with
  | false => simp at hp
  | true =>
    simp at hp
    exact hp

/-- C6 as stated is false on the code: load_dbs fills in empty identifiers
but performs no distinctness validation, so an existing index file naming the
same nonempty identifier for current and old loads successfully and the
post-load index violates the distinctness invariant. -/
theorem c6_counterexample :
    ∃ out : DbIndex × Db × Db × Fs,
      load_dbs "f1" "f2" true true ⟨IndexFile.parsed ⟨"a", "a", 7⟩, []⟩ = some out ∧
      out.1.current = out.1.old := by
  refine ⟨(⟨"a", "a", 7⟩, emptyDb, emptyDb,
    ⟨IndexFile.parsed ⟨"a", "a", 7⟩, [("a", emptyDb)]⟩), by decide, rfl⟩

/-- C6 amended: provided any pre-existing parseable index names identifiers
that are distinct or empty, and the freshly generated identifiers are
nonempty, mutually distinct and distinct from the stored ones (Uuid
freshness), the index returned by load_dbs names distinct nonempty
identifiers; and a successful rotation from a state whose index names
distinct nonempty identifiers, with a fresh nonempty name, yields an index
with distinct nonempty identifiers and only ever deletes the pre-rotation
old directory, which is named by neither field of the post-rotation index. -/
theorem c6_index_invariant (fresh1 fresh2 : String) (fs : Fs)
    (n : String) (e : Int) (d : Bool) (s : RollingState)
    (hf1 : fresh1 ≠ "") (hf2 : fresh2 ≠ "") (hff : fresh1 ≠ fresh2)
    (hfile : ∀ r0 : DbIndex, fs.indexFile = IndexFile.parsed r0 →
      ((r0.current ≠ "" → r0.old ≠ "" → r0.current ≠ r0.old) ∧
        fresh1 ≠ r0.old ∧ fresh2 ≠ r0.current))
    (hsc : s.db_index.current ≠ s.db_index.old)
    (hscn : s.db_index.current ≠ "") (hson : s.db_index.old ≠ "")
    (hn : n ≠ "") (hn1 : n ≠ s.db_index.current) (hn2 : n ≠ s.db_index.old) :
    (∀ idx cur old fs2, load_dbs fresh1 fresh2 true true fs = some (idx, cur, old, fs2) →
      idx.current ≠ idx.old ∧ idx.current ≠ "" ∧ idx.old ≠ "") ∧
    ((next_current n e true true d s).ok = true ∧
      (next_current n e true true d s).state.db_index.current ≠
        (next_current n e true true d s).state.db_index.old ∧
      (next_current n e true true d s).state.db_index.current ≠ "" ∧
      (next_current n e true true d s).state.db_index.old ≠ "" ∧
      (∀ p, Ev.deleteDir p ∈ (next_current n e true true d s).trace →
        p ≠ (next_current n e true true d s).state.db_index.current ∧
        p ≠ (next_current n e true true d s).state.db_index.old)) := by
  constructor
  · intro idx cur old fs2 h
    cases hfi : fs.indexFile with
    | corrupt =>
      simp only [load_dbs, hfi] at h
      exact Option.noConfusion h
    | absent =>
      simp only [load_dbs, hfi] at h
      rw [load_dbs_record_eq] at h
      simp only [Option.some.injEq, Prod.mk.injEq] at h
      obtain ⟨hidx, -⟩ := h
      rw [← hidx]
      exact ⟨hff, hf1, hf2⟩
    | parsed r0 =>
      obtain ⟨hrco, hr1, hr2⟩ := hfile r0 hfi
      simp only [load_dbs, hfi] at h
      rw [load_dbs_record_eq] at h
      simp only [Option.some.injEq, Prod.mk.injEq] at h
      obtain ⟨hidx, -⟩ := h
      rw [← hidx]
      by_cases hc : r0.current = ""
      · by_cases ho : r0.old = ""
        · rw [if_pos hc, if_pos ho]
          exact ⟨hff, hf1, hf2⟩
        · rw [if_pos hc, if_neg ho]
          exact ⟨hr1, hf1, ho⟩
      · by_cases ho : r0.old = ""
        · rw [if_neg hc, if_pos ho]
          exact ⟨fun hh => hr2 hh.symm, hc, hf2⟩
        · rw [if_neg hc, if_neg ho]
          exact ⟨hrco hc ho, hc, ho⟩
  · refine ⟨rfl, ?_, ?_, ?_, ?_⟩
    · rw [next_current_ok]
      exact hn1
    · rw [next_current_ok]
      exact hn
    · rw [next_current_ok]
      exact hscn
    · intro p hp
      have hpold : p = s.db_index.old := rotation_trace_delete_name n e d s p hp
      rw [next_current_ok, hpold]
      exact ⟨fun hh => hn2 hh.symm, fun hh => hsc hh.symm⟩

/-- Witness for the amended C6 at concrete inputs. -/
theorem c6_witness :
    (next_current "g" 3 true true true state0).ok = true ∧
    (next_current "g" 3 true true true state0).state.db_index.current ≠
      (next_current "g" 3 true true true state0).state.db_index.old := by
  have h := c6_index_invariant "f1" "f2" fs0 "g" 3 true state0 (by decide) (by decide)
    (by decide)
    (by
      intro r0 hr
      have h2 : IndexFile.parsed idx0 = IndexFile.parsed r0 := hr
      injection h2 with h3
      subst h3
      exact ⟨fun h4 h5 => by decide, by decide, by decide⟩)
    (by decide) (by decide) (by decide) (by decide) (by decide) (by decide)
  exact ⟨h.2.1, h.2.2.1⟩

/-- Witness for C2 at a concrete input: the deletion effect at position 2 of
the successful rotation trace concerns the superseded directory and is
preceded by the sync of the updated index record. -/
theorem c2_witness :
    "o0" = state0.db_index.old ∧ ∃ j, j < 2 ∧
      (next_current "g" 9 true true true state0).trace.get? j =
        some (Ev.syncIndex ⟨"g", "c0", 9⟩) :=
  (c2_sync_before_delete "g" 9 true state0).2.2 2 "o0" (by decide)

/-- C8: a reader running db_queue concurrently with a rotation observes either
the complete pre-rotation handle pairing or the complete post-rotation handle
pairing, never a torn mix.  Both db_queue (one array expression whose two
read guards live to the end of the statement) and the swap statement of
next_current line 175 (whose two write guards live to the end of the
statement, the current lock acquired first because the right operand of the
assignment is evaluated first) acquire the current lock before the old lock,
so the lock exclusion intervals force the reader entirely before or entirely
after the swap. -/
theorem c8_no_torn_pairing (s : RollingState) (freshDb : Db) (t : LockSchedule)
    (hr1 : t.r1 < t.r2) (hr2 : t.r2 < t.r3)
    (hw1 : t.w1 < t.w2) (hw2 : t.w2 < t.w3)
    (hcur : t.r3 < t.w1 ∨ t.w3 < t.r1)
    (hold : t.r3 < t.w2 ∨ t.w3 < t.r2) :
    observed_db_queue s freshDb t = s.db_queue ∨
    observed_db_queue s freshDb t = post_pairing s freshDb := by
  rcases hcur with h | h
  · left
    unfold observed_db_queue RollingState.db_queue
    rw [if_pos (show t.r1 < t.w1 by omega), if_pos (show t.r2 < t.w2 by omega)]
  · right
    unfold observed_db_queue post_pairing
    rw [if_neg (show ¬ t.r1 < t.w1 by omega), if_neg (show ¬ t.r2 < t.w2 by omega)]

/-- Witness for C8 at a concrete schedule (the reader runs entirely before the
rotation). -/
theorem c8_witness :
    observed_db_queue state0 emptyDb ⟨1, 2, 3, 4, 5, 6⟩ = state0.db_queue ∨
    observed_db_queue state0 emptyDb ⟨1, 2, 3, 4, 5, 6⟩ = post_pairing state0 emptyDb :=
  c8_no_torn_pairing state0 emptyDb ⟨1, 2, 3, 4, 5, 6⟩ (by decide) (by decide) (by decide)
    (by decide) (Or.inl (by decide)) (Or.inl (by decide))

/-- C9 as stated is false on the code: the server bundle loader writes every
decoded block into the store before checking the declared root, so with a
bundle whose declared root does not match, the call fails and yet the block
with key 7 has already been written via put_keyed. -/
theorem c9_counterexample :
    (load_actor_bundle_from_server 1 ⟨[2], [(7, [9])]⟩ emptyDb).1 = false ∧
    ((load_actor_bundle_from_server 1 ⟨[2], [(7, [9])]⟩ emptyDb).2).hasBlock 7 = true :=
  ⟨by decide, by decide⟩

/-- C9 amended: the path loader verifies every required declared manifest root
against the declared header roots before writing any block and leaves the
store unchanged when a root is missing; the server loader writes the decoded
blocks first and verifies the declared root only afterwards, surfacing a
mismatch as an error after the writes; in both loaders no key already present
in the store is ever removed, so existing store state is preserved. -/
theorem c9_root_verification (required : List Key) (b : CarBundle) (db : Db) (root : Key)
    (k : Key) :
    ((required.all (fun m => b.roots.contains m)) = false →
      load_actor_bundles_from_path required b db = (false, db)) ∧
    ((required.all (fun m => b.roots.contains m)) = true →
      load_actor_bundles_from_path required b db = (true, putAllBlocks db b.blocks)) ∧
    (db.hasBlock root = false →
      ¬(b.roots.length = 1 ∧ b.roots.head? = some root) →
      load_actor_bundle_from_server root b db = (false, putAllBlocks db b.blocks)) ∧
    (db.hasBlock k = true →
      ((load_actor_bundle_from_server root b db).2).hasBlock k = true ∧
      ((load_actor_bundles_from_path required b db).2).hasBlock k = true) := by
  refine ⟨?_, ?_, ?_, ?_⟩
  · intro h
    unfold load_actor_bundles_from_path
    rw [h]
    exact if_neg (by simp)
  · intro h
    unfold load_actor_bundles_from_path
    rw [h]
    exact if_pos rfl
  · intro h1 h2
    unfold load_actor_bundle_from_server
    rw [h1, if_neg h2]
    exact if_neg (by simp)
  · intro h
    constructor
    · unfold load_actor_bundle_from_server
      by_cases hr : db.hasBlock root = true
      · rw [if_pos hr]
        exact h
      · rw [if_neg hr]
        by_cases h2 : (b.roots.length = 1 ∧ b.roots.head? = some root)
        · rw [if_pos h2]
          exact (hasBlock_putAll b.blocks db k).mpr (Or.inr h)
        · rw [if_neg h2]
          exact (hasBlock_putAll b.blocks db k).mpr (Or.inr h)
    · unfold load_actor_bundles_from_path
      by_cases hall : (required.all (fun m => b.roots.contains m)) = true
      · rw [if_pos hall]
        exact (hasBlock_putAll b.blocks db k).mpr (Or.inr h)
      · rw [if_neg hall]
        exact h

/-- Witness for the amended C9 at concrete inputs. -/
theorem c9_witness :
    load_actor_bundles_from_path [3] ⟨[2], [(7, [9])]⟩ emptyDb = (false, emptyDb) ∧
    load_actor_bundle_from_server 1 ⟨[2], [(7, [9])]⟩ emptyDb =
      (false, putAllBlocks emptyDb [(7, [9])]) :=
  ⟨(c9_root_verification [3] ⟨[2], [(7, [9])]⟩ emptyDb 1 0).1 (by decide),
    (c9_root_verification [3] ⟨[2], [(7, [9])]⟩ emptyDb 1 0).2.2.1 (by decide) (by decide)⟩
